import Mathlib

/-!
Shallow embedding of the compliance checks in `src/frontend/src/lib/checks.ts`
(supcheck repository).  Network effects are modelled by explicit world records:
every `await`ed call reads its outcome from the world, and every issued request
is recorded in a trace (`List Req`).  Thrown JS exceptions are modelled as
`Except.error msg` / `SbResp.thrown msg`, carrying the message of the thrown
`Error` object.
-/

namespace Supcheck

/-- The four verdict statuses of `CheckResult.status` in checks.ts. -/
inductive Status
  | pass
  | fail
  | pending
  | error
deriving DecidableEq, Repr

/-- JSON values, used for the `details` payload of a verdict. -/
inductive JSONValue
  | str (s : String)
  | num (n : Nat)
  | bool (b : Bool)
  | null
  | obj (fields : List (String × JSONValue))
  | arr (items : List JSONValue)

/-- The `CheckResult` record of checks.ts. -/
structure CheckResult where
  status : Status
  message : String
  details : JSONValue

/-- Network requests the checks can issue (data plane and control plane). -/
inductive Req
  | mgmtTables (ref : String)
  | mgmtPolicies (ref : String)
  | pgTablesQuery (table : String)
  | pgClassQuery (table : String)
  | execSqlRpc (table : String)
  | tableRead (table : String)
  | mgmtApi (endpoint : String)
deriving DecidableEq, Repr

/-- Object-field lookup in a JSON value. -/
def detailsField (d : JSONValue) (k : String) : Option JSONValue :=
  match d with
  | .obj fields => fields.lookup k
  | _ => none

mutual

/-- All string atoms and object keys occurring anywhere in a JSON value. -/
def jsonStrings : JSONValue → List String
  | .str s => [s]
  | .num _ => []
  | .bool _ => []
  | .null => []
  | .obj fields => jsonStringsFields fields
  | .arr items => jsonStringsList items

def jsonStringsFields : List (String × JSONValue) → List String
  | [] => []
  | (k, v) :: rest => k :: jsonStrings v ++ jsonStringsFields rest

def jsonStringsList : List JSONValue → List String
  | [] => []
  | v :: rest => jsonStrings v ++ jsonStringsList rest

end

/-! ## extractProjectRef (checks.ts lines 52–55)

`url.match(/https:\/\/([^.]+)\.supabase\.co/)`: an (unanchored) scan for the
first position where `https://` is followed by one or more non-dot characters
and then `.supabase.co`.  Because `[^.]+` cannot consume a dot and the regex
next requires a literal dot, the greedy match is exactly `takeWhile (≠ '.')`.
-/

/-- Try to match the project-ref regex at the start of the character list. -/
def refMatchAt (cs : List Char) : Option String :=
  if List.isPrefixOf "https://".data cs then
    let rest := cs.drop 8
    let ref := rest.takeWhile (fun c => c ≠ '.')
    if ref.isEmpty then none
    else if List.isPrefixOf ".supabase.co".data (rest.dropWhile (fun c => c ≠ '.')) then
      some (String.mk ref)
    else none
  else none

/-- Scan left to right for the first position where the regex matches. -/
def findRef : List Char → Option String
  | [] => none
  | c :: rest =>
    match refMatchAt (c :: rest) with
    | some r => some r
    | none => findRef rest

/-- `extractProjectRef` from checks.ts. -/
def extractProjectRef (url : String) : Option String :=
  findRef url.data

/-! ## checkPITR (checks.ts lines 536–616) -/

/-- Shape of the subscription endpoint response (checks.ts lines 42–45). -/
structure SubscriptionResponse where
  tier : String
deriving DecidableEq, Repr

/-- Shape of the backup-info endpoint response (checks.ts lines 47–50). -/
structure BackupInfo where
  pitr_enabled : Bool
deriving DecidableEq, Repr

/-- World for checkPITR: outcomes of the two `callManagementApi` calls.
`Except.error msg` models the call throwing (non-2xx HTTP status or a missing
management API key, see `callManagementApi` in lib/supabase.ts). -/
structure PitrWorld where
  subscription : Except String SubscriptionResponse
  backupInfo : Except String BackupInfo

/-- JS `String.prototype.toLowerCase()`, as a character-wise map (executable,
unlike `String.toLower` whose recursion does not reduce in the kernel). -/
def jsToLower (s : String) : String :=
  String.mk (s.data.map Char.toLower)

/-- The free-tier / tier-fetch-failure verdict of checkPITR. -/
def freeTierResult : CheckResult :=
  { status := .fail
    message := "Point in Time Recovery (PITR) is not available on the free tier. Upgrade to Pro plan or higher to enable this feature."
    details := .obj [("currentTier", .str "free"),
                     ("recommendation", .str "Upgrade to Pro plan or higher"),
                     ("learnMore", .str "https://supabase.com/pricing")] }

/-- `checkPITR` from checks.ts, returning the verdict and the trace of
management-API endpoints invoked. -/
def checkPITR (w : PitrWorld) (url : String) : CheckResult × List Req :=
  match extractProjectRef url with
  | none =>
    ({ status := .error
       message := "Invalid Supabase URL. Unable to extract project reference."
       details := .obj [("url", .str url)] }, [])
  | some projectRef =>
    let subReq := Req.mgmtApi ("projects/" ++ projectRef ++ "/subscription")
    match w.subscription with
    | .error _ => (freeTierResult, [subReq])
    | .ok sub =>
      if jsToLower sub.tier = "free" then (freeTierResult, [subReq])
      else
        let backupReq := Req.mgmtApi ("projects/" ++ projectRef ++ "/database/backups/info")
        match w.backupInfo with
        | .ok backupInfo =>
          ({ status := if backupInfo.pitr_enabled then .pass else .fail
             message := if backupInfo.pitr_enabled then "Point in Time Recovery is enabled"
               else "Point in Time Recovery is available but not enabled. You can enable it in your project settings."
             details := .obj [("pitr_enabled", .bool backupInfo.pitr_enabled),
                              ("tier", .str sub.tier),
                              ("configuration", .str (if backupInfo.pitr_enabled then "enabled" else "disabled"))] },
           [subReq, backupReq])
        | .error e =>
          ({ status := .fail
             message := "Point in Time Recovery is available but not configured. You can enable it in your project settings."
             details := .obj [("tier", .str sub.tier),
                              ("recommendation", .str "Configure PITR in project settings"),
                              ("error", .str e)] },
           [subReq, backupReq])

/-! ## checkMFA (checks.ts lines 68–119) -/

/-- A user record as consumed by checkMFA: `email` may be null/undefined
(`none`) and `factors` may be undefined (`none`) or an array, of which only
the length matters. -/
structure MfaUser where
  email : Option String
  factors : Option Nat
deriving DecidableEq, Repr

/-- Resolved response of `supabase.auth.admin.listUsers()`:
`users = response.data?.users`, `error = response.error`. -/
structure ListUsersResponse where
  users : Option (List MfaUser)
  error : Option String

/-- Resolved response of the fallback `supabase.from('auth.users').select('*')`. -/
structure SelectUsersResponse where
  data : Option (List MfaUser)
  error : Option String

/-- World for checkMFA: outcomes of the admin listing and of the fallback
query; `Except.error` models the awaited call throwing. -/
structure MfaWorld where
  adminList : Except String ListUsersResponse
  fallbackSelect : Except String SelectUsersResponse

/-- The user-enumeration phase of checkMFA (checks.ts lines 74–94): users and
the carried `listUsersError`; `.error` is a thrown exception message. -/
def enumerateUsers (w : MfaWorld) : Except String (List MfaUser × Option String) :=
  match w.adminList with
  | .ok r => .ok (r.users.getD [], r.error)
  | .error _ =>
    match w.fallbackSelect with
    | .ok r => .ok (r.data.getD [], r.error)
    | .error _ => .error "MFA Eror - regenerate keys"

/-- `user.email || 'unknown'`. -/
def emailOrUnknown (u : MfaUser) : String :=
  match u.email with
  | some s => if s = "" then "unknown" else s
  | none => "unknown"

/-- `Boolean(user.factors?.length) || false`. -/
def mfaEnabled (u : MfaUser) : Bool :=
  match u.factors with
  | some n => decide (0 < n)
  | none => false

/-- `checkMFA` from checks.ts. -/
def checkMFA (w : MfaWorld) : CheckResult :=
  match enumerateUsers w with
  | .error msg =>
    { status := .error
      message := "Failed to check MFA status: " ++ msg
      details := .obj [("message", .str msg), ("name", .str "Error"), ("stack", .str "")] }
  | .ok (users, listUsersError) =>
    match listUsersError with
    | some e =>
      { status := .error
        message := "Failed to check MFA status: " ++ e
        details := .obj [("message", .str e), ("name", .str "Error"), ("stack", .str "")] }
    | none =>
      let userMFAStatus := users.map (fun u => (emailOrUnknown u, mfaEnabled u))
      let allEnabled := decide (0 < userMFAStatus.length) && userMFAStatus.all (fun p => p.2)
      let enabledCount := (userMFAStatus.filter (fun p => p.2)).length
      { status := if allEnabled then .pass else .fail
        message := if allEnabled then
            "MFA is enabled for all " ++ toString userMFAStatus.length ++ " users"
          else
            "MFA is enabled for " ++ toString enabledCount ++ " out of " ++
              toString userMFAStatus.length ++ " users"
        details := .arr (userMFAStatus.map (fun p => .obj [("email", .str p.1), ("mfaEnabled", .bool p.2)])) }

/-! ## The RLS checks (checks.ts lines 164–533)

`checkTableRls` issues up to four data-plane requests per table; each
`await`ed supabase-js query either resolves with a `{ data, error }` pair or
throws.  `SbResp` models that outcome.
-/

/-- Outcome of an awaited supabase-js query: resolved `{ data, error }`
(with `data` possibly null) or a thrown exception. -/
inductive SbResp (α : Type)
  | resolved (data : Option α) (error : Option String)
  | thrown (msg : String)

/-- A row of the raw-SQL RLS status query (checks.ts lines 472–480). -/
structure SqlRlsRow where
  table_name : String
  rls_enabled : Bool
  rls_forced : Bool
deriving DecidableEq, Repr

/-- Per-table world for `checkTableRls`: the outcomes of its four queries, in
program order: the pg_tables metadata probe, the pg_class `relrowsecurity`
probe, the `exec_sql` RPC probe, and the final 1-row read of the table. -/
structure TableWorld where
  pgTables : SbResp Unit
  pgClass : SbResp Bool
  execSql : SbResp (List SqlRlsRow)
  directRead : SbResp Nat

/-- The per-table result record `RlsCheckResult` of checks.ts (lines 167–171). -/
structure RlsCheckResult where
  table : String
  rlsDisabled : Bool
  errorMessage : Option String := none
deriving DecidableEq, Repr

/-- First probe of checkTableRls (lines 436–467): pg_tables metadata check,
then the pg_class `relrowsecurity` flag; `none` means fall through. -/
def probe1Res (w : TableWorld) (table : String) : Option RlsCheckResult :=
  match w.pgTables with
  | .resolved (some _) none =>
    match w.pgClass with
    | .resolved (some relrowsecurity) none =>
      some { table := table, rlsDisabled := !relrowsecurity }
    | _ => none
  | _ => none

/-- Requests issued by the first probe: the pg_tables query always, the
pg_class query only when the metadata check resolved without error. -/
def probe1Trace (w : TableWorld) (table : String) : List Req :=
  match w.pgTables with
  | .resolved (some _) none => [Req.pgTablesQuery table, Req.pgClassQuery table]
  | _ => [Req.pgTablesQuery table]

/-- Second probe of checkTableRls (lines 470–496): the `exec_sql` RPC; used
only when it resolves without error to a non-empty array. -/
def probe2Res (w : TableWorld) (table : String) : Option RlsCheckResult :=
  match w.execSql with
  | .resolved (some (row :: _)) none =>
    some { table := table, rlsDisabled := !row.rls_enabled }
  | _ => none

/-- `checkTableRls` from checks.ts, with the trace of data-plane requests. -/
def checkTableRls (w : TableWorld) (table : String) : RlsCheckResult × List Req :=
  match probe1Res w table with
  | some r => (r, probe1Trace w table)
  | none =>
    match probe2Res w table with
    | some r => (r, probe1Trace w table ++ [Req.execSqlRpc table])
    | none =>
      match w.directRead with
      | .thrown msg =>
        ({ table := table, rlsDisabled := false
           errorMessage := some ("Could not query table: " ++ msg) },
         probe1Trace w table ++ [Req.execSqlRpc table, Req.tableRead table])
      | .resolved _ _ =>
        ({ table := table, rlsDisabled := true
           errorMessage := some "RLS status determined by fallback method. May not be accurate." },
         probe1Trace w table ++ [Req.execSqlRpc table, Req.tableRead table])

/-- A table record returned by the Management API `/database/tables` endpoint
(checks.ts lines 287–291). -/
structure MgmtTable where
  name : String
  schema : String
  type : String
deriving DecidableEq, Repr

/-- A policy record returned by the `/database/policies` endpoint
(checks.ts lines 327–333). -/
structure Policy where
  table : String
  name : String
  definition : String
  command : String
  check : String
deriving DecidableEq, Repr

/-- World for the RLS checks: the client URL recovered from the supabase
client internals, the two control-plane fetch outcomes (`.error msg` models a
non-ok HTTP response, whose message the code turns into a thrown Error), the
per-table data-plane worlds, and a pathological rejection of a per-table
resolution promise (`some msg`), modelling an unhandled exception. -/
structure RlsWorld where
  supabaseUrl : String
  tablesResp : Except String (List MgmtTable)
  policiesResp : Except String (List Policy)
  tableWorld : String → TableWorld
  tableReject : String → Option String

/-- `tables.filter(t => t.schema === 'public' && t.type === 'table')`. -/
def publicTables (tables : List MgmtTable) : List MgmtTable :=
  tables.filter (fun t => t.schema == "public" && t.type == "table")

/-- `publicTables.filter(t => customTables?.includes(t.name))`. -/
def tablesToCheck (tables : List MgmtTable) (customTables : List String) : List MgmtTable :=
  (publicTables tables).filter (fun t => customTables.contains t.name)

/-- Names of the tables the management probe actually checks. -/
def checkedNames (tables : List MgmtTable) (customTables : List String) : List String :=
  (tablesToCheck tables customTables).map MgmtTable.name

/-- `new Set(policies.map(p => p.table))`, as the underlying name list. -/
def policyTables (policies : List Policy) : List String :=
  policies.map Policy.table

/-- One `{table, rlsEnabled, error}` entry of `details.table_results`. -/
def tableResultEntry (table : String) (rlsEnabled : Bool) (error : Option String) : JSONValue :=
  .obj [("table", .str table), ("rlsEnabled", .bool rlsEnabled),
        ("error", match error with | some m => .str m | none => .null)]

/-- A JSON array of strings. -/
def strArr (l : List String) : JSONValue :=
  .arr (l.map JSONValue.str)

/-- JS `array.join(', ')`. -/
def joinComma : List String → String
  | [] => ""
  | [a] => a
  | a :: b :: rest => a ++ ", " ++ joinComma (b :: rest)

/-- The `details.table_results` array of a verdict, as a list of entries. -/
def resultEntries (res : CheckResult) : List JSONValue :=
  match detailsField res.details "table_results" with
  | some (.arr items) => items
  | _ => []

/-- `checkRLSWithManagementAPI` from checks.ts (lines 256–380).  The first
component is `.error msg` when the function throws (the message of the thrown
Error), `.ok res` when it returns; the second is the trace of control-plane
requests issued. -/
def checkRLSWithManagementAPI (w : RlsWorld) (managementKey : String)
    (customTables : Option (List String)) : Except String CheckResult × List Req :=
  match extractProjectRef w.supabaseUrl with
  | none => (.error "Unable to extract project reference from Supabase URL", [])
  | some projectRef =>
    match w.tablesResp with
    | .error msg =>
      (.error ("Failed to retrieve tables: " ++ msg), [Req.mgmtTables projectRef])
    | .ok tables =>
      let toCheck := tablesToCheck tables (customTables.getD [])
      if toCheck.isEmpty then
        (.ok { status := .error
               message := "None of the specified tables were found in the database."
               details := .obj [("tables_requested", strArr (customTables.getD [])),
                                ("tables_available", strArr ((publicTables tables).map MgmtTable.name))] },
         [Req.mgmtTables projectRef])
      else
        let tableNames := toCheck.map MgmtTable.name
        match w.policiesResp with
        | .error msg =>
          (.error ("Failed to retrieve policies: " ++ msg),
           [Req.mgmtTables projectRef, Req.mgmtPolicies projectRef])
        | .ok policies =>
          let rlsResults := tableNames.map (fun tbl => (tbl, (policyTables policies).contains tbl))
          let disabled := rlsResults.filter (fun r => !r.2)
          let tableResults := JSONValue.arr (rlsResults.map (fun r => tableResultEntry r.1 r.2 none))
          if disabled.isEmpty then
            (.ok { status := .pass
                   message := "RLS enabled for all " ++ toString tableNames.length ++ " tables checked."
                   details := .obj [("tables_checked", .num tableNames.length),
                                    ("tables_checked_list", strArr tableNames),
                                    ("table_results", tableResults)] },
             [Req.mgmtTables projectRef, Req.mgmtPolicies projectRef])
          else
            (.ok { status := .fail
                   message := "RLS not enabled for " ++ toString disabled.length ++ " of " ++
                     toString tableNames.length ++ " tables: " ++ joinComma (disabled.map (fun r => r.1))
                   details := .obj [("tables_checked", .num tableNames.length),
                                    ("tables_without_rls", strArr (disabled.map (fun r => r.1))),
                                    ("failing_tables", .str (joinComma (disabled.map (fun r => r.1)))),
                                    ("table_results", tableResults)] },
             [Req.mgmtTables projectRef, Req.mgmtPolicies projectRef])

/-- Resolution of one table inside `checkTablesRls`: the promise either
fulfills with the `checkTableRls` result or (pathologically) rejects. -/
def resolveTable (w : RlsWorld) (table : String) : Except String RlsCheckResult :=
  match w.tableReject table with
  | some e => .error e
  | none => .ok (checkTableRls (w.tableWorld table) table).1

/-- `Promise.all`: fulfills with all values, or rejects with the first
rejection (first in list order in this deterministic model). -/
def promiseAll {ε α : Type} : List (Except ε α) → Except ε (List α)
  | [] => .ok []
  | .error e :: _ => .error e
  | .ok a :: rest =>
    match promiseAll rest with
    | .error e => .error e
    | .ok values => .ok (a :: values)

/-- `checkTablesRls` from checks.ts (lines 385–427), with the trace of the
data-plane requests issued by all per-table checks. -/
def checkTablesRls (w : RlsWorld) (tables : List String) : CheckResult × List Req :=
  let trace := (tables.map (fun t => (checkTableRls (w.tableWorld t) t).2)).flatten
  match promiseAll (tables.map (resolveTable w)) with
  | .error e =>
    ({ status := .error
       message := "Error checking tables RLS: " ++ e
       details := .obj [("error", .str e)] }, trace)
  | .ok results =>
    let tablesWithRlsDisabled := results.filter (fun r => r.rlsDisabled)
    let hasFailure := !tablesWithRlsDisabled.isEmpty
    let failingTables := joinComma (tablesWithRlsDisabled.map (fun r => r.table))
    let tableResults := JSONValue.arr
      (results.map (fun r => tableResultEntry r.table (!r.rlsDisabled) r.errorMessage))
    ({ status := if hasFailure then .fail else .pass
       message := if hasFailure then
           "RLS is disabled on " ++ toString tablesWithRlsDisabled.length ++ " tables: " ++ failingTables
         else "RLS is enabled on all " ++ toString results.length ++ " tables checked"
       details := .obj [("tables_checked", .num results.length),
                        ("tables_with_rls_disabled", .num tablesWithRlsDisabled.length),
                        ("failing_tables", if failingTables = "" then .null else .str failingTables),
                        ("table_results", tableResults)] },
     trace)

/-- The early error verdict of checkRLS for a missing or empty table list. -/
def noTablesResult : CheckResult :=
  { status := .error
    message := "No tables provided for RLS check. Please specify tables to check."
    details := .obj [("error", .str "Missing required parameter: tables to check")] }

/-- `checkRLS` from checks.ts (lines 176–251): management-API probe first when
a management key is present, falling back to direct per-table queries when the
probe throws; the optional `customTables` mirrors the optional TS parameter. -/
def checkRLS (w : RlsWorld) (managementKey : String)
    (customTables : Option (List String)) : CheckResult × List Req :=
  if (customTables.getD []).isEmpty then (noTablesResult, [])
  else
    let fallbackPath : List Req → CheckResult × List Req := fun tr0 =>
      if w.supabaseUrl = "" then
        ({ status := .error
           message := "Could not extract project URL from Supabase client"
           details := .obj [] }, tr0)
      else
        match extractProjectRef w.supabaseUrl with
        | none =>
          ({ status := .error
             message := "Invalid Supabase URL. Unable to extract project reference."
             details := .obj [("url", .str w.supabaseUrl)] }, tr0)
        | some _ =>
          let r := checkTablesRls w (customTables.getD [])
          (r.1, tr0 ++ r.2)
    if managementKey ≠ "" then
      match checkRLSWithManagementAPI w managementKey customTables with
      | (.ok res, tr) => (res, tr)
      | (.error _, tr) => fallbackPath tr
    else fallbackPath []

/-- Names of the checked tables the management probe reports as disabled
(no policy attached). -/
def disabledNames (tables : List MgmtTable) (policies : List Policy)
    (customTables : List String) : List String :=
  (checkedNames tables customTables).filter
    (fun t => !(policyTables policies).contains t)

/-- The `table_results` entries produced by the management probe. -/
def mgmtEntries (tables : List MgmtTable) (policies : List Policy)
    (customTables : List String) : List JSONValue :=
  (checkedNames tables customTables).map
    (fun t => tableResultEntry t ((policyTables policies).contains t) none)

/-- Per-table results of the direct-query fallback, one per requested table. -/
def fallbackResults (w : RlsWorld) (tables : List String) : List RlsCheckResult :=
  tables.map (fun t => (checkTableRls (w.tableWorld t) t).1)

/-- The fallback results with RLS reported disabled. -/
def fallbackDisabled (w : RlsWorld) (tables : List String) : List RlsCheckResult :=
  (fallbackResults w tables).filter (fun r => r.rlsDisabled)

/-- The `table_results` entries produced by the fallback path. -/
def fallbackEntries (w : RlsWorld) (tables : List String) : List JSONValue :=
  (fallbackResults w tables).map
    (fun r => tableResultEntry r.table (!r.rlsDisabled) r.errorMessage)

/-- The `table` field of one `table_results` entry. -/
def entryTable : JSONValue → Option String
  | .obj (("table", .str t) :: _) => some t
  | _ => none

/-- The table names listed in a verdict's `details.table_results`. -/
def entryTableNames (res : CheckResult) : List String :=
  (resultEntries res).filterMap entryTable

/-- Whether a request targets the management (control-plane) API. -/
def Req.isMgmt : Req → Bool
  | .mgmtTables _ => true
  | .mgmtPolicies _ => true
  | .mgmtApi _ => true
  | _ => false

/-! ## Concrete worlds used by witnesses and counterexamples -/

/-- A PITR world where both management calls fail. -/
def pitrW0 : PitrWorld :=
  { subscription := .error "HTTP 401 Unauthorized", backupInfo := .error "HTTP 401 Unauthorized" }

/-- A PITR world on a paid tier with PITR enabled. -/
def pitrW1 : PitrWorld :=
  { subscription := .ok { tier := "pro" }, backupInfo := .ok { pitr_enabled := true } }

/-- An MFA world whose admin listing resolves with zero users. -/
def mfaW0 : MfaWorld :=
  { adminList := .ok { users := some [], error := none }
    fallbackSelect := .error "unused" }

/-- A table world where the catalog probes fall through and the final 1-row
read resolves successfully. -/
def twOpen : TableWorld :=
  { pgTables := .thrown "relation pg_tables is not exposed"
    pgClass := .thrown "relation pg_class is not exposed"
    execSql := .resolved none (some "function exec_sql does not exist")
    directRead := .resolved (some 1) none }

/-- A table world where the catalog probes fall through and the final 1-row
read throws a permission error. -/
def twDenied : TableWorld :=
  { pgTables := .thrown "relation pg_tables is not exposed"
    pgClass := .thrown "relation pg_class is not exposed"
    execSql := .resolved none (some "function exec_sql does not exist")
    directRead := .thrown "permission denied for table profiles" }

/-- An RLS world whose control plane knows one public table `users` with no
policies; used to exercise the management-API path. -/
def rlsW4 : RlsWorld :=
  { supabaseUrl := "https://abc.supabase.co"
    tablesResp := .ok [{ name := "users", schema := "public", type := "table" }]
    policiesResp := .ok []
    tableWorld := fun _ => twOpen
    tableReject := fun _ => none }

/-- An RLS world whose control plane knows public tables `orders` (with one
policy) and `profiles` (without). -/
def rlsW5 : RlsWorld :=
  { supabaseUrl := "https://abc.supabase.co"
    tablesResp := .ok [{ name := "orders", schema := "public", type := "table" },
                       { name := "profiles", schema := "public", type := "table" }]
    policiesResp := .ok [{ table := "orders", name := "p1", definition := "d",
                           command := "SELECT", check := "c" }]
    tableWorld := fun _ => twOpen
    tableReject := fun _ => none }

/-- An RLS world with no management credential use: table `orders` readable
(heuristic: RLS disabled), table `profiles` denied (heuristic: RLS enabled). -/
def rlsW2 : RlsWorld :=
  { supabaseUrl := "https://abc.supabase.co"
    tablesResp := .error "unused"
    policiesResp := .error "unused"
    tableWorld := fun t => if t = "profiles" then twDenied else twOpen
    tableReject := fun _ => none }

/-- An RLS world whose control-plane tables fetch fails with an HTTP error. -/
def rlsW3 : RlsWorld :=
  { supabaseUrl := "https://abc.supabase.co"
    tablesResp := .error "Internal Server Error"
    policiesResp := .error "Internal Server Error"
    tableWorld := fun _ => twOpen
    tableReject := fun _ => none }

/-- An RLS world where the resolution of table `b` rejects with `boom` while
table `a` resolves. -/
def rlsW7 : RlsWorld :=
  { supabaseUrl := "https://abc.supabase.co"
    tablesResp := .error "unused"
    policiesResp := .error "unused"
    tableWorld := fun _ => twOpen
    tableReject := fun t => if t = "b" then some "boom" else none }

/-! ## Claim theorems -/

/-- C10: for every credentials input whose url does not match the project-ref
pattern `https://<project-ref>.supabase.co` (the regex of `extractProjectRef`
fails, i.e. returns `none`), checkPITR returns status = error with the exact
invalid-URL message, the offending url echoed in details, and an empty request
trace — no network call is issued. -/
theorem checkPITR_invalid_url (w : PitrWorld) (url : String)
    (h : extractProjectRef url = none) :
    checkPITR w url =
      ({ status := .error
         message := "Invalid Supabase URL. Unable to extract project reference."
         details := .obj [("url", .str url)] }, []) := by
  unfold checkPITR
  rw [h]

/-- Witness for C10 at the concrete url `not-a-url`. -/
theorem checkPITR_invalid_url_witness :
    checkPITR pitrW0 "not-a-url" =
      ({ status := .error
         message := "Invalid Supabase URL. Unable to extract project reference."
         details := .obj [("url", .str "not-a-url")] }, []) :=
  checkPITR_invalid_url pitrW0 "not-a-url" rfl

/-- C9: with a valid project url, (i) a failed subscription fetch yields the
`fail` paid-tier-upgrade verdict with only the subscription endpoint invoked
(the backup-info endpoint is never called); (ii) a `free` tier likewise;
(iii) when the tier qualifies, the verdict is `pass` iff the backup
configuration's `pitr_enabled` is true, both endpoints having been invoked;
(iv) when the backup-info call itself fails, the verdict is `fail` with the
"available but not configured" message rather than `error`. -/
theorem checkPITR_tier_gating (w : PitrWorld) (url projectRef : String)
    (href : extractProjectRef url = some projectRef) :
    (∀ e, w.subscription = .error e →
      checkPITR w url =
        (freeTierResult, [Req.mgmtApi ("projects/" ++ projectRef ++ "/subscription")])) ∧
    (∀ sub, w.subscription = .ok sub → jsToLower sub.tier = "free" →
      checkPITR w url =
        (freeTierResult, [Req.mgmtApi ("projects/" ++ projectRef ++ "/subscription")])) ∧
    (∀ sub backupInfo, w.subscription = .ok sub → jsToLower sub.tier ≠ "free" →
      w.backupInfo = .ok backupInfo →
      (checkPITR w url).1.status = (if backupInfo.pitr_enabled then Status.pass else Status.fail) ∧
      (checkPITR w url).2 =
        [Req.mgmtApi ("projects/" ++ projectRef ++ "/subscription"),
         Req.mgmtApi ("projects/" ++ projectRef ++ "/database/backups/info")]) ∧
    (∀ sub e, w.subscription = .ok sub → jsToLower sub.tier ≠ "free" →
      w.backupInfo = .error e →
      (checkPITR w url).1.status = Status.fail ∧
      (checkPITR w url).1.message =
        "Point in Time Recovery is available but not configured. You can enable it in your project settings.") := by
  refine ⟨?_, ?_, ?_, ?_⟩
  · intro e he
    unfold checkPITR
    rw [href, he]
  · intro sub hs ht
    unfold checkPITR
    rw [href, hs]
    simp [ht]
  · intro sub backupInfo hs ht hb
    unfold checkPITR
    rw [href, hs, hb]
    simp [ht]
  · intro sub e hs ht hb
    unfold checkPITR
    rw [href, hs, hb]
    simp [ht]

/-- Witness for C9: on `pitrW1` (pro tier, PITR enabled) with a valid url,
instantiating conjunct (iii). -/
theorem checkPITR_tier_gating_witness :
    (checkPITR pitrW1 "https://abc.supabase.co").1.status =
      (if (true : Bool) then Status.pass else Status.fail) ∧
    (checkPITR pitrW1 "https://abc.supabase.co").2 =
      [Req.mgmtApi "projects/abc/subscription",
       Req.mgmtApi "projects/abc/database/backups/info"] :=
  (checkPITR_tier_gating pitrW1 "https://abc.supabase.co" "abc" rfl).2.2.1
    { tier := "pro" } { pitr_enabled := true } rfl (by decide) rfl

/-- C2: for a missing or empty table list, checkRLS returns the fixed
status = error verdict ("No tables provided for RLS check. Please specify
tables to check.") with an empty request trace: no data-plane or
control-plane request is issued. -/
theorem checkRLS_no_tables (w : RlsWorld) (managementKey : String)
    (customTables : Option (List String))
    (h : customTables = none ∨ customTables = some []) :
    (checkRLS w managementKey customTables).1.status = Status.error ∧
    (checkRLS w managementKey customTables).1.message =
      "No tables provided for RLS check. Please specify tables to check." ∧
    (checkRLS w managementKey customTables).2 = [] := by
  rcases h with h | h <;> subst h <;> exact ⟨rfl, rfl, rfl⟩

/-- Witness for C2: missing table list on a concrete world. -/
theorem checkRLS_no_tables_witness :
    (checkRLS rlsW4 "key" none).1.status = Status.error ∧
    (checkRLS rlsW4 "key" none).1.message =
      "No tables provided for RLS check. Please specify tables to check." ∧
    (checkRLS rlsW4 "key" none).2 = [] :=
  checkRLS_no_tables rlsW4 "key" none (Or.inl rfl)

/-- C3: in the final heuristic fallback of checkTableRls (both catalog probes
fell through), a thrown (permission-denied) read yields `rlsDisabled = false`
with the query error carried, while a read that resolves yields
`rlsDisabled = true` carrying the explanatory low-confidence tag in
`errorMessage`. -/
theorem checkTableRls_heuristic (w : TableWorld) (table : String)
    (h1 : probe1Res w table = none) (h2 : probe2Res w table = none) :
    (∀ msg, w.directRead = .thrown msg →
      (checkTableRls w table).1 =
        { table := table, rlsDisabled := false
          errorMessage := some ("Could not query table: " ++ msg) }) ∧
    (∀ rows err, w.directRead = .resolved rows err →
      (checkTableRls w table).1 =
        { table := table, rlsDisabled := true
          errorMessage := some "RLS status determined by fallback method. May not be accurate." }) := by
  constructor
  · intro msg hm
    simp [checkTableRls, h1, h2, hm]
  · intro rows err hm
    simp [checkTableRls, h1, h2, hm]

/-- Witness for C3: a denied read on `profiles` and an open read on `orders`. -/
theorem checkTableRls_heuristic_witness :
    (checkTableRls twDenied "profiles").1 =
      { table := "profiles", rlsDisabled := false
        errorMessage := some "Could not query table: permission denied for table profiles" } ∧
    (checkTableRls twOpen "orders").1 =
      { table := "orders", rlsDisabled := true
        errorMessage := some "RLS status determined by fallback method. May not be accurate." } :=
  ⟨(checkTableRls_heuristic twDenied "profiles" rfl rfl).1
      "permission denied for table profiles" rfl,
   (checkTableRls_heuristic twOpen "orders" rfl rfl).2 (some 1) none rfl⟩

/-- C8: when user enumeration succeeds without a carried error, checkMFA
returns status = pass iff every enumerated account has at least one
registered factor AND the account list is non-empty; in particular zero
accounts yield status = fail. -/
theorem checkMFA_pass_iff (w : MfaWorld) (users : List MfaUser)
    (h : enumerateUsers w = .ok (users, none)) :
    ((checkMFA w).status = Status.pass ↔
      (users ≠ [] ∧ ∀ u ∈ users, mfaEnabled u = true)) ∧
    (users = [] → (checkMFA w).status = Status.fail) := by
  have hall : ∀ us : List MfaUser,
      ((us.map (fun u => (emailOrUnknown u, mfaEnabled u))).all (fun p => p.2))
        = us.all mfaEnabled := by
    intro us
    induction us with
    | nil => rfl
    | cons u us ih => simp [ih]
  unfold checkMFA
  rw [h]
  constructor
  · simp only [List.length_map, hall users]
    split
    · rename_i hc
      simp only [Bool.and_eq_true, decide_eq_true_eq, List.all_eq_true] at hc
      exact iff_of_true rfl ⟨List.ne_nil_of_length_pos hc.1, hc.2⟩
    · rename_i hc
      simp only [Bool.and_eq_true, decide_eq_true_eq, List.all_eq_true] at hc
      refine iff_of_false (by decide) ?_
      rintro ⟨hne, hmfa⟩
      exact hc ⟨List.length_pos_of_ne_nil hne, hmfa⟩
  · intro hu
    subst hu
    rfl

/-- Witness for C8: zero enumerated accounts yield fail, not pass. -/
theorem checkMFA_pass_iff_witness :
    ((checkMFA mfaW0).status = Status.pass ↔
      (([] : List MfaUser) ≠ [] ∧ ∀ u ∈ ([] : List MfaUser), mfaEnabled u = true)) ∧
    (([] : List MfaUser) = [] → (checkMFA mfaW0).status = Status.fail) :=
  checkMFA_pass_iff mfaW0 [] rfl

/-! ## Helper lemmas for the RLS theorems -/

/-- Appending strings appends their character data. -/
theorem strData_append (a b : String) : (a ++ b).data = a.data ++ b.data := rfl

/-- Every member of a list is an infix of its comma join. -/
theorem mem_data_joinComma (l : List String) (s : String) (h : s ∈ l) :
    s.data <:+: (joinComma l).data := by
  induction l with
  | nil => simp at h
  | cons a rest ih =>
    cases rest with
    | nil =>
      rw [List.mem_singleton] at h
      subst h
      exact List.infix_refl _
    | cons b rest2 =>
      rcases List.mem_cons.mp h with h1 | h1
      · subst h1
        show s.data <:+: ((s ++ ", ") ++ joinComma (b :: rest2)).data
        rw [strData_append, strData_append, List.append_assoc]
        exact ⟨[], ", ".data ++ (joinComma (b :: rest2)).data, rfl⟩
      · have hih := ih h1
        show s.data <:+: ((a ++ ", ") ++ joinComma (b :: rest2)).data
        rw [strData_append]
        exact hih.trans ⟨(a ++ ", ").data, [], by simp⟩

/-- An infix of a string is an infix of any extension on the left. -/
theorem infix_append_left (pre s t : String) (h : s.data <:+: t.data) :
    s.data <:+: (pre ++ t).data := by
  rw [strData_append]
  exact h.trans ⟨pre.data, [], by simp⟩

/-- Filtering a flag-pairing map by the negated flag. -/
theorem filter_pair_map (names : List String) (p : String → Bool) :
    ((names.map (fun t => (t, p t))).filter (fun r => !r.2))
      = (names.filter (fun t => !p t)).map (fun t => (t, p t)) := by
  induction names with
  | nil => rfl
  | cons a rest ih =>
    cases hp : p a <;> simp [List.filter_cons, hp, ih]

/-- `isEmpty` is preserved by `map`. -/
theorem isEmpty_map {α β : Type} (f : α → β) (l : List α) :
    (l.map f).isEmpty = l.isEmpty := by
  cases l <;> rfl

/-- `promiseAll` over promises that all fulfill. -/
theorem promiseAll_ok (w : RlsWorld) (tables : List String)
    (h : ∀ t ∈ tables, w.tableReject t = none) :
    promiseAll (tables.map (resolveTable w)) = .ok (fallbackResults w tables) := by
  induction tables with
  | nil => rfl
  | cons a rest ih =>
    have ha : w.tableReject a = none := h a (List.mem_cons_self a rest)
    have hrest := ih (fun t ht => h t (List.mem_cons_of_mem a ht))
    simp only [List.map_cons, resolveTable, ha]
    unfold promiseAll
    rw [hrest]
    rfl

/-- The first probe never changes the table name. -/
theorem probe1Res_table (w : TableWorld) (t : String) (r : RlsCheckResult)
    (h : probe1Res w t = some r) : r.table = t := by
  unfold probe1Res at h
  split at h
  · split at h
    · injection h with h
      subst h
      rfl
    · exact Option.noConfusion h
  · exact Option.noConfusion h

/-- The second probe never changes the table name. -/
theorem probe2Res_table (w : TableWorld) (t : String) (r : RlsCheckResult)
    (h : probe2Res w t = some r) : r.table = t := by
  unfold probe2Res at h
  split at h
  · injection h with h
    subst h
    rfl
  · exact Option.noConfusion h

/-- `checkTableRls` reports the table it was asked about. -/
theorem checkTableRls_table (w : TableWorld) (t : String) :
    (checkTableRls w t).1.table = t := by
  unfold checkTableRls
  split
  · rename_i r hr
    exact probe1Res_table w t r hr
  · split
    · rename_i r hr
      exact probe2Res_table w t r hr
    · split <;> rfl

/-- The first probe only issues catalog (data-plane) requests. -/
theorem probe1Trace_not_mgmt (w : TableWorld) (t : String) :
    ∀ r ∈ probe1Trace w t, r.isMgmt = false := by
  intro r hr
  unfold probe1Trace at hr
  split at hr <;>
    simp only [List.mem_cons, List.not_mem_nil, or_false] at hr
  · rcases hr with rfl | rfl <;> rfl
  · subst hr
    rfl

/-- `checkTableRls` only issues data-plane requests. -/
theorem checkTableRls_trace_not_mgmt (w : TableWorld) (t : String) :
    ∀ r ∈ (checkTableRls w t).2, r.isMgmt = false := by
  intro r hr
  unfold checkTableRls at hr
  split at hr
  · exact probe1Trace_not_mgmt w t r hr
  · split at hr
    · rcases List.mem_append.mp hr with h | h
      · exact probe1Trace_not_mgmt w t r h
      · rw [List.mem_singleton] at h
        subst h
        rfl
    · split at hr <;>
      · rcases List.mem_append.mp hr with h | h
        · exact probe1Trace_not_mgmt w t r h
        · simp only [List.mem_cons, List.not_mem_nil, or_false] at h
          rcases h with rfl | rfl <;> rfl

/-- The trace of `checkTablesRls` is the concatenation of the per-table
traces, whether or not some promise rejected. -/
theorem checkTablesRls_trace (w : RlsWorld) (tables : List String) :
    (checkTablesRls w tables).2 =
      (tables.map (fun t => (checkTableRls (w.tableWorld t) t).2)).flatten := by
  unfold checkTablesRls
  cases promiseAll (tables.map (resolveTable w)) <;> rfl

/-- `checkTablesRls` only issues data-plane requests. -/
theorem checkTablesRls_trace_not_mgmt (w : RlsWorld) (tables : List String) :
    ∀ r ∈ (checkTablesRls w tables).2, r.isMgmt = false := by
  intro r hr
  rw [checkTablesRls_trace] at hr
  rcases List.mem_flatten.mp hr with ⟨l, hl, hrl⟩
  rcases List.mem_map.mp hl with ⟨t, _, rfl⟩
  exact checkTableRls_trace_not_mgmt _ t r hrl

/-- Reduction of the management-API probe when both control-plane fetches
succeed and the requested-table intersection is non-empty. -/
theorem mgmt_probe_reduce (w : RlsWorld) (key : String) (ct : List String)
    (tables : List MgmtTable) (policies : List Policy) (projectRef : String)
    (href : extractProjectRef w.supabaseUrl = some projectRef)
    (ht : w.tablesResp = .ok tables)
    (hp : w.policiesResp = .ok policies)
    (hne : tablesToCheck tables ct ≠ []) :
    checkRLSWithManagementAPI w key (some ct) =
      (.ok (if (disabledNames tables policies ct).isEmpty then
          { status := .pass
            message := "RLS enabled for all " ++ toString (checkedNames tables ct).length ++
              " tables checked."
            details := .obj [("tables_checked", .num (checkedNames tables ct).length),
                             ("tables_checked_list", strArr (checkedNames tables ct)),
                             ("table_results", .arr (mgmtEntries tables policies ct))] }
        else
          { status := .fail
            message := "RLS not enabled for " ++ toString (disabledNames tables policies ct).length ++
              " of " ++ toString (checkedNames tables ct).length ++ " tables: " ++
              joinComma (disabledNames tables policies ct)
            details := .obj [("tables_checked", .num (checkedNames tables ct).length),
                             ("tables_without_rls", strArr (disabledNames tables policies ct)),
                             ("failing_tables", .str (joinComma (disabledNames tables policies ct))),
                             ("table_results", .arr (mgmtEntries tables policies ct))] }),
       [Req.mgmtTables projectRef, Req.mgmtPolicies projectRef]) := by
  have hne2 : (tablesToCheck tables ct).isEmpty = false := by
    cases hcc : tablesToCheck tables ct with
    | nil => exact absurd hcc hne
    | cons x xs => rfl
  have hfilter : (((checkedNames tables ct).map
        (fun tbl => (tbl, (policyTables policies).contains tbl))).filter (fun r => !r.2))
      = (disabledNames tables policies ct).map
          (fun tbl => (tbl, (policyTables policies).contains tbl)) := by
    rw [filter_pair_map]
    rfl
  have hfst : ((fun r : String × Bool => r.1) ∘
      (fun tbl => (tbl, (policyTables policies).contains tbl))) = fun tbl => tbl := rfl
  have hentry : ((fun r : String × Bool => tableResultEntry r.1 r.2 none) ∘
      (fun tbl => (tbl, (policyTables policies).contains tbl)))
      = fun tbl => tableResultEntry tbl ((policyTables policies).contains tbl) none := rfl
  unfold checkRLSWithManagementAPI
  rw [href, ht]
  simp only [Option.getD_some]
  rw [if_neg (by rw [hne2]; exact Bool.false_ne_true)]
  rw [hp]
  simp only []
  rw [show List.map MgmtTable.name (tablesToCheck tables ct) = checkedNames tables ct from rfl]
  rw [hfilter]
  simp only [isEmpty_map, List.length_map, List.map_map]
  rw [hfst, hentry, List.map_id']
  by_cases hdis : (disabledNames tables policies ct).isEmpty = true
  · simp only [if_pos hdis]
    rfl
  · simp only [if_neg hdis]
    rfl

/-- Reduction of the direct-query fallback when no per-table promise rejects. -/
theorem checkTablesRls_reduce (w : RlsWorld) (tables : List String)
    (h : ∀ t ∈ tables, w.tableReject t = none) :
    (checkTablesRls w tables).1 =
      { status := if (fallbackDisabled w tables).isEmpty then .pass else .fail
        message := if (fallbackDisabled w tables).isEmpty then
            "RLS is enabled on all " ++ toString (fallbackResults w tables).length ++
              " tables checked"
          else
            "RLS is disabled on " ++ toString (fallbackDisabled w tables).length ++ " tables: " ++
              joinComma ((fallbackDisabled w tables).map (fun r => r.table))
        details := .obj [("tables_checked", .num (fallbackResults w tables).length),
                         ("tables_with_rls_disabled", .num (fallbackDisabled w tables).length),
                         ("failing_tables",
                           if joinComma ((fallbackDisabled w tables).map (fun r => r.table)) = ""
                           then .null
                           else .str (joinComma ((fallbackDisabled w tables).map (fun r => r.table)))),
                         ("table_results", .arr (fallbackEntries w tables))] } := by
  unfold checkTablesRls
  rw [promiseAll_ok w tables h]
  simp only []
  rw [show (fallbackResults w tables).filter (fun r => r.rlsDisabled)
        = fallbackDisabled w tables from rfl]
  rw [show (fallbackResults w tables).map
        (fun r => tableResultEntry r.table (!r.rlsDisabled) r.errorMessage)
        = fallbackEntries w tables from rfl]
  cases hdis : (fallbackDisabled w tables).isEmpty <;> simp [hdis]

/-- checkRLS returns the management-probe verdict when the probe returns. -/
theorem checkRLS_of_mgmt_ok (w : RlsWorld) (key : String) (ct : List String)
    (res : CheckResult) (tr : List Req) (hkey : key ≠ "") (hct : ct ≠ [])
    (h : checkRLSWithManagementAPI w key (some ct) = (.ok res, tr)) :
    checkRLS w key (some ct) = (res, tr) := by
  unfold checkRLS
  rw [if_neg (by simp [List.isEmpty_iff, hct]), if_pos hkey, h]

/-- checkRLS falls back to the direct queries when the probe throws. -/
theorem checkRLS_of_mgmt_err (w : RlsWorld) (key : String) (ct : List String)
    (e : String) (tr : List Req) (projectRef : String) (hkey : key ≠ "") (hct : ct ≠ [])
    (href : extractProjectRef w.supabaseUrl = some projectRef)
    (h : checkRLSWithManagementAPI w key (some ct) = (.error e, tr)) :
    checkRLS w key (some ct) = ((checkTablesRls w ct).1, tr ++ (checkTablesRls w ct).2) := by
  have hurl : ¬(w.supabaseUrl = "") := by
    intro h0
    rw [h0] at href
    exact Option.noConfusion href
  unfold checkRLS
  rw [if_neg (by simp [List.isEmpty_iff, hct]), if_pos hkey, h]
  simp only []
  rw [if_neg hurl, href]
  rfl

/-- checkRLS goes straight to the direct queries when no management key is
provided. -/
theorem checkRLS_no_key (w : RlsWorld) (ct : List String) (projectRef : String)
    (hct : ct ≠ [])
    (href : extractProjectRef w.supabaseUrl = some projectRef) :
    checkRLS w "" (some ct) = ((checkTablesRls w ct).1, (checkTablesRls w ct).2) := by
  have hurl : ¬(w.supabaseUrl = "") := by
    intro h0
    rw [h0] at href
    exact Option.noConfusion href
  unfold checkRLS
  rw [if_neg (by simp [List.isEmpty_iff, hct]), if_neg (by simp)]
  simp only []
  rw [if_neg hurl, href]
  rfl

/-- Membership of a `table_results` entry in a mapped entry list determines
the reported flag. -/
theorem entry_mem_iff (names : List String) (p : String → Bool) (t : String) (b : Bool)
    (ht : t ∈ names) :
    (tableResultEntry t b none ∈ names.map (fun n => tableResultEntry n (p n) none))
      ↔ p t = b := by
  constructor
  · intro hmem
    rcases List.mem_map.mp hmem with ⟨n, _, he⟩
    have h1 : n = t ∧ p n = b := by
      simp only [tableResultEntry, JSONValue.obj.injEq, List.cons.injEq, Prod.mk.injEq,
        JSONValue.str.injEq, JSONValue.bool.injEq, and_true, true_and] at he
      tauto
    rw [← h1.1, h1.2]
  · intro hb
    have hm : tableResultEntry t (p t) none
        ∈ names.map (fun n => tableResultEntry n (p n) none) :=
      List.mem_map_of_mem (fun n => tableResultEntry n (p n) none) ht
    rwa [hb] at hm

/-- A name not in a list makes `contains` false. -/
theorem contains_eq_false_of_not_mem {l : List String} {a : String} (h : a ∉ l) :
    l.contains a = false := by
  cases hcc : l.contains a
  · rfl
  · exact absurd (List.elem_iff.mp hcc) h

/-- Extracting the table names back out of management-probe entries. -/
theorem filterMap_entryTable_mgmt (names : List String) (p : String → Bool) :
    ((names.map (fun n => tableResultEntry n (p n) none)).filterMap entryTable) = names := by
  induction names with
  | nil => rfl
  | cons a rest ih =>
    simp only [List.map_cons, List.filterMap_cons,
      show entryTable (tableResultEntry a (p a) none) = some a from rfl, ih]

/-- Extracting the table names back out of fallback entries. -/
theorem filterMap_entryTable_fallback (rs : List RlsCheckResult) :
    ((rs.map (fun r => tableResultEntry r.table (!r.rlsDisabled) r.errorMessage)).filterMap
        entryTable)
      = rs.map (fun r => r.table) := by
  induction rs with
  | nil => rfl
  | cons a rest ih =>
    simp only [List.map_cons, List.filterMap_cons,
      show entryTable (tableResultEntry a.table (!a.rlsDisabled) a.errorMessage)
        = some a.table from rfl, ih]

/-- C5: under the control-plane policy probe, with both control-plane fetches
succeeding and a non-empty intersection with the requested tables, every
checked table is reported with `rlsEnabled = true` iff its name appears in the
fetched policy list, and with `rlsEnabled = false` iff it does not. -/
theorem mgmt_policy_iff (w : RlsWorld) (key : String) (ct : List String)
    (tables : List MgmtTable) (policies : List Policy) (projectRef : String)
    (href : extractProjectRef w.supabaseUrl = some projectRef)
    (ht : w.tablesResp = .ok tables)
    (hp : w.policiesResp = .ok policies)
    (hne : tablesToCheck tables ct ≠ []) :
    ∃ res, (checkRLSWithManagementAPI w key (some ct)).1 = .ok res ∧
      ∀ t ∈ checkedNames tables ct,
        ((tableResultEntry t true none ∈ resultEntries res) ↔ t ∈ policyTables policies) ∧
        ((tableResultEntry t false none ∈ resultEntries res) ↔ t ∉ policyTables policies) := by
  have hred := mgmt_probe_reduce w key ct tables policies projectRef href ht hp hne
  obtain ⟨res, hres, hentries⟩ : ∃ res,
      (checkRLSWithManagementAPI w key (some ct)).1 = .ok res ∧
        resultEntries res = mgmtEntries tables policies ct := by
    refine ⟨_, by rw [hred], ?_⟩
    by_cases hdis : (disabledNames tables policies ct).isEmpty = true
    · rw [if_pos hdis]
      rfl
    · rw [if_neg hdis]
      rfl
  refine ⟨res, hres, ?_⟩
  intro t htm
  constructor
  · rw [hentries]
    show tableResultEntry t true none ∈ (checkedNames tables ct).map
      (fun n => tableResultEntry n ((policyTables policies).contains n) none) ↔ _
    rw [entry_mem_iff _ _ t true htm]
    exact List.elem_iff
  · rw [hentries]
    show tableResultEntry t false none ∈ (checkedNames tables ct).map
      (fun n => tableResultEntry n ((policyTables policies).contains n) none) ↔ _
    rw [entry_mem_iff _ _ t false htm]
    constructor
    · intro hc hmem
      have hcontra : (policyTables policies).contains t = true := List.elem_iff.mpr hmem
      exact Bool.noConfusion (hcontra.symm.trans hc)
    · intro hmem
      exact contains_eq_false_of_not_mem hmem

/-- Witness for C5 on `rlsW5`: `orders` has a policy, `profiles` does not. -/
theorem mgmt_policy_iff_witness :
    ∃ res, (checkRLSWithManagementAPI rlsW5 "key" (some ["orders", "profiles"])).1
        = .ok res ∧
      ∀ t ∈ checkedNames [{ name := "orders", schema := "public", type := "table" },
                          { name := "profiles", schema := "public", type := "table" }]
              ["orders", "profiles"],
        ((tableResultEntry t true none ∈ resultEntries res) ↔
          t ∈ policyTables [{ table := "orders", name := "p1", definition := "d",
                              command := "SELECT", check := "c" }]) ∧
        ((tableResultEntry t false none ∈ resultEntries res) ↔
          t ∉ policyTables [{ table := "orders", name := "p1", definition := "d",
                              command := "SELECT", check := "c" }]) :=
  mgmt_policy_iff rlsW5 "key" ["orders", "profiles"]
    [{ name := "orders", schema := "public", type := "table" },
     { name := "profiles", schema := "public", type := "table" }]
    [{ table := "orders", name := "p1", definition := "d",
       command := "SELECT", check := "c" }]
    "abc" rfl rfl rfl (by decide)

/-- C1: when a probe succeeds, the RLS resolver aggregates per-table outcomes
into one verdict.  Management-API path: status = pass iff every checked table
has a policy; otherwise status = fail, every disabled table is named in the
message, and a `{table, rlsEnabled, error}` entry for it appears in
`details.table_results`.  Direct-query fallback path (no management key):
status = pass iff no per-table result reports `rlsDisabled`; otherwise
status = fail, every disabled table is named in the message and listed in
`details.table_results`. -/
theorem checkRLS_aggregation :
    (∀ (w : RlsWorld) (key : String) (ct : List String) (tables : List MgmtTable)
        (policies : List Policy) (projectRef : String),
      key ≠ "" → ct ≠ [] →
      extractProjectRef w.supabaseUrl = some projectRef →
      w.tablesResp = .ok tables → w.policiesResp = .ok policies →
      tablesToCheck tables ct ≠ [] →
      (((checkRLS w key (some ct)).1.status = Status.pass) ↔
        ∀ t ∈ checkedNames tables ct, t ∈ policyTables policies) ∧
      ((∃ t ∈ checkedNames tables ct, t ∉ policyTables policies) →
        (checkRLS w key (some ct)).1.status = Status.fail ∧
        ∀ t ∈ checkedNames tables ct, t ∉ policyTables policies →
          t.data <:+: (checkRLS w key (some ct)).1.message.data ∧
          tableResultEntry t false none ∈ resultEntries (checkRLS w key (some ct)).1)) ∧
    (∀ (w : RlsWorld) (ct : List String) (projectRef : String),
      ct ≠ [] →
      extractProjectRef w.supabaseUrl = some projectRef →
      (∀ t ∈ ct, w.tableReject t = none) →
      (((checkRLS w "" (some ct)).1.status = Status.pass) ↔
        ∀ r ∈ fallbackResults w ct, r.rlsDisabled = false) ∧
      ((∃ r ∈ fallbackResults w ct, r.rlsDisabled = true) →
        (checkRLS w "" (some ct)).1.status = Status.fail ∧
        ∀ r ∈ fallbackResults w ct, r.rlsDisabled = true →
          r.table.data <:+: (checkRLS w "" (some ct)).1.message.data ∧
          tableResultEntry r.table false r.errorMessage
            ∈ resultEntries (checkRLS w "" (some ct)).1)) := by
  constructor
  · intro w key ct tables policies projectRef hkey hct href ht hp hne
    have hred := mgmt_probe_reduce w key ct tables policies projectRef href ht hp hne
    have hfin := checkRLS_of_mgmt_ok w key ct _ _ hkey hct hred
    constructor
    · by_cases hdis : (disabledNames tables policies ct).isEmpty = true
      · have hnil := List.isEmpty_iff.mp hdis
        have hallm : ∀ t ∈ checkedNames tables ct, t ∈ policyTables policies := by
          intro t htm
          have hx := List.filter_eq_nil_iff.mp hnil t htm
          simpa [List.elem_iff] using hx
        refine iff_of_true ?_ hallm
        rw [hfin]
        simp only [if_pos hdis]
      · refine iff_of_false ?_ ?_
        · rw [hfin]
          simp only [if_neg hdis]
          exact fun hq => Status.noConfusion hq
        · intro hallm
          apply hdis
          rw [List.isEmpty_iff]
          apply List.filter_eq_nil_iff.mpr
          intro t htm
          simp [List.elem_iff, hallm t htm]
    · rintro ⟨t0, ht0, hnp0⟩
      have ht0d : t0 ∈ disabledNames tables policies ct := by
        unfold disabledNames
        exact List.mem_filter.mpr ⟨ht0, by simp [hnp0]⟩
      have hdis : ¬((disabledNames tables policies ct).isEmpty = true) := by
        intro hq
        rw [List.isEmpty_iff.mp hq] at ht0d
        exact List.not_mem_nil t0 ht0d
      constructor
      · rw [hfin]
        simp only [if_neg hdis]
      · intro t htm hnp
        have htd : t ∈ disabledNames tables policies ct := by
          unfold disabledNames
          exact List.mem_filter.mpr ⟨htm, by simp [hnp]⟩
        constructor
        · have hmsg : (checkRLS w key (some ct)).1.message =
              ("RLS not enabled for " ++ toString (disabledNames tables policies ct).length ++
                " of " ++ toString (checkedNames tables ct).length ++ " tables: ") ++
                joinComma (disabledNames tables policies ct) := by
            rw [hfin]
            simp only [if_neg hdis]
          rw [hmsg]
          exact infix_append_left _ _ _ (mem_data_joinComma _ t htd)
        · have hentries : resultEntries (checkRLS w key (some ct)).1
              = mgmtEntries tables policies ct := by
            rw [hfin]
            simp only [if_neg hdis]
            rfl
          rw [hentries]
          show tableResultEntry t false none ∈ (checkedNames tables ct).map
            (fun n => tableResultEntry n ((policyTables policies).contains n) none)
          rw [entry_mem_iff _ _ t false htm]
          exact contains_eq_false_of_not_mem hnp
  · intro w ct projectRef hct href hrej
    have hred := checkTablesRls_reduce w ct hrej
    have hfin := checkRLS_no_key w ct projectRef hct href
    have hstat : (checkRLS w "" (some ct)).1.status
        = (if (fallbackDisabled w ct).isEmpty then Status.pass else Status.fail) := by
      rw [hfin, hred]
    constructor
    · by_cases hdis : (fallbackDisabled w ct).isEmpty = true
      · have hnil := List.isEmpty_iff.mp hdis
        have hallr : ∀ r ∈ fallbackResults w ct, r.rlsDisabled = false := by
          intro r hrm
          have hx := List.filter_eq_nil_iff.mp hnil r hrm
          cases hq : r.rlsDisabled
          · rfl
          · exact absurd hq hx
        refine iff_of_true ?_ hallr
        rw [hstat, if_pos hdis]
      · refine iff_of_false ?_ ?_
        · rw [hstat, if_neg hdis]
          exact fun hq => Status.noConfusion hq
        · intro hallr
          apply hdis
          rw [List.isEmpty_iff]
          apply List.filter_eq_nil_iff.mpr
          intro r hrm
          simp [hallr r hrm]
    · rintro ⟨r0, hr0, hd0⟩
      have hr0d : r0 ∈ fallbackDisabled w ct := by
        unfold fallbackDisabled
        exact List.mem_filter.mpr ⟨hr0, hd0⟩
      have hdis : ¬((fallbackDisabled w ct).isEmpty = true) := by
        intro hq
        rw [List.isEmpty_iff.mp hq] at hr0d
        exact List.not_mem_nil r0 hr0d
      refine ⟨by rw [hstat, if_neg hdis], ?_⟩
      intro r hrm hrd
      have hrdm : r ∈ fallbackDisabled w ct := by
        unfold fallbackDisabled
        exact List.mem_filter.mpr ⟨hrm, hrd⟩
      constructor
      · have hmsg : (checkRLS w "" (some ct)).1.message =
            ("RLS is disabled on " ++ toString (fallbackDisabled w ct).length ++ " tables: ") ++
              joinComma ((fallbackDisabled w ct).map (fun r => r.table)) := by
          rw [hfin, hred]
          simp only [if_neg hdis]
        rw [hmsg]
        exact infix_append_left _ _ _
          (mem_data_joinComma _ r.table (List.mem_map_of_mem (fun r => r.table) hrdm))
      · have hentries : resultEntries (checkRLS w "" (some ct)).1 = fallbackEntries w ct := by
          rw [hfin, hred]
          rfl
        rw [hentries]
        have hm : tableResultEntry r.table (!r.rlsDisabled) r.errorMessage
            ∈ fallbackEntries w ct :=
          List.mem_map_of_mem (fun r => tableResultEntry r.table (!r.rlsDisabled) r.errorMessage)
            hrm
        rwa [hrd, Bool.not_true] at hm

/-- Witness for C1 on `rlsW5`: requested tables `orders` and `profiles`, only
`orders` has a policy, so the aggregate verdict is fail. -/
theorem checkRLS_aggregation_witness :
    (checkRLS rlsW5 "key" (some ["orders", "profiles"])).1.status = Status.fail :=
  ((checkRLS_aggregation.1 rlsW5 "key" ["orders", "profiles"]
      [{ name := "orders", schema := "public", type := "table" },
       { name := "profiles", schema := "public", type := "table" }]
      [{ table := "orders", name := "p1", definition := "d",
         command := "SELECT", check := "c" }]
      "abc" (by decide) (by decide) rfl rfl rfl (by decide)).2
    ⟨"profiles", by decide, by decide⟩).1

/-- C4 counterexample: with requested table `orders` absent from the control
plane's public tables (which hold only `users`), checkRLSWithManagementAPI
does NOT raise — it returns an `.ok` verdict with status = error, and checkRLS
passes that verdict through without falling back: the trace shows only the
single control-plane tables fetch, no policy fetch and no data-plane probe. -/
theorem mgmt_probe_no_raise_cx :
    checkRLSWithManagementAPI rlsW4 "key" (some ["orders"]) =
      (.ok { status := .error
             message := "None of the specified tables were found in the database."
             details := .obj [("tables_requested", strArr ["orders"]),
                              ("tables_available", strArr ["users"])] },
       [Req.mgmtTables "abc"]) ∧
    (checkRLS rlsW4 "key" (some ["orders"])).1.status = Status.error ∧
    (checkRLS rlsW4 "key" (some ["orders"])).2 = [Req.mgmtTables "abc"] :=
  ⟨rfl, rfl, rfl⟩

/-- C4 (amended): the management probe raises on an HTTP error from either
control-plane fetch and on failure to extract the project ref; an empty
intersection between the requested tables and the control plane's public
tables instead RETURNS a status = error verdict (no raise, hence no
fallback); and with no management key checkRLS never issues a control-plane
request at all (the probe is skipped rather than raising). -/
theorem mgmt_probe_raises (w : RlsWorld) (key : String) (ct : Option (List String)) :
    (∀ projectRef msg, extractProjectRef w.supabaseUrl = some projectRef →
      w.tablesResp = .error msg →
      (checkRLSWithManagementAPI w key ct).1 = .error ("Failed to retrieve tables: " ++ msg)) ∧
    (∀ projectRef tables msg, extractProjectRef w.supabaseUrl = some projectRef →
      w.tablesResp = .ok tables →
      tablesToCheck tables (ct.getD []) ≠ [] →
      w.policiesResp = .error msg →
      (checkRLSWithManagementAPI w key ct).1 = .error ("Failed to retrieve policies: " ++ msg)) ∧
    ((extractProjectRef w.supabaseUrl = none) →
      (checkRLSWithManagementAPI w key ct).1 =
        .error "Unable to extract project reference from Supabase URL") ∧
    (∀ projectRef tables, extractProjectRef w.supabaseUrl = some projectRef →
      w.tablesResp = .ok tables →
      tablesToCheck tables (ct.getD []) = [] →
      (checkRLSWithManagementAPI w key ct).1 =
        .ok { status := .error
              message := "None of the specified tables were found in the database."
              details := .obj [("tables_requested", strArr (ct.getD [])),
                               ("tables_available", strArr ((publicTables tables).map MgmtTable.name))] }) ∧
    (∀ r ∈ (checkRLS w "" ct).2, r.isMgmt = false) := by
  refine ⟨?_, ?_, ?_, ?_, ?_⟩
  · intro projectRef msg href hmsg
    unfold checkRLSWithManagementAPI
    rw [href, hmsg]
  · intro projectRef tables msg href htab hne hpol
    have hne2 : (tablesToCheck tables (ct.getD [])).isEmpty = false := by
      cases hcc : tablesToCheck tables (ct.getD []) with
      | nil => exact absurd hcc hne
      | cons x xs => rfl
    unfold checkRLSWithManagementAPI
    rw [href, htab]
    simp only []
    rw [if_neg (by rw [hne2]; exact Bool.false_ne_true), hpol]
  · intro hnone
    unfold checkRLSWithManagementAPI
    rw [hnone]
  · intro projectRef tables href htab hemp
    have hemp2 : (tablesToCheck tables (ct.getD [])).isEmpty = true := by
      rw [hemp]
      rfl
    unfold checkRLSWithManagementAPI
    rw [href, htab]
    simp only []
    rw [if_pos hemp2]
  · intro r hr
    have htr : (checkRLS w "" ct).2 = [] ∨
        (checkRLS w "" ct).2 = (checkTablesRls w (ct.getD [])).2 := by
      unfold checkRLS
      by_cases h1 : ((ct.getD []).isEmpty = true)
      · rw [if_pos h1]
        exact Or.inl rfl
      · rw [if_neg h1]
        simp only []
        rw [if_neg (fun hq : ("" : String) ≠ "" => hq rfl)]
        by_cases h2 : w.supabaseUrl = ""
        · rw [if_pos h2]
          exact Or.inl rfl
        · rw [if_neg h2]
          cases hx : extractProjectRef w.supabaseUrl
          · exact Or.inl rfl
          · exact Or.inr rfl
    rcases htr with h | h
    · rw [h] at hr
      exact absurd hr (List.not_mem_nil r)
    · rw [h] at hr
      exact checkTablesRls_trace_not_mgmt w _ r hr

/-- Witness for the amended C4: an HTTP 500 on the tables fetch raises. -/
theorem mgmt_probe_raises_witness :
    (checkRLSWithManagementAPI rlsW3 "key" (some ["orders"])).1 =
      .error "Failed to retrieve tables: Internal Server Error" :=
  (mgmt_probe_raises rlsW3 "key" (some ["orders"])).1 "abc" "Internal Server Error" rfl rfl

/-- C6 counterexample: requesting `users` (known to the control plane) and
`missing` (unknown), the verdict reports exactly one `table_results` entry —
for `users` only — and the dropped table `missing` is named nowhere in the
details, contradicting the claim that any table-not-found exclusion is named
there. -/
theorem checkRLS_dropped_table_cx :
    resultEntries (checkRLS rlsW4 "key" (some ["users", "missing"])).1 =
      [tableResultEntry "users" false none] ∧
    "missing" ∉ jsonStrings (checkRLS rlsW4 "key" (some ["users", "missing"])).1.details := by
  exact ⟨rfl, by decide⟩

/-- C6 (amended): per-table coverage of the verdict.  Management-API path:
the `table_results` entries are exactly the requested tables found among the
control plane's public tables, one each in that list's order (each of them a
requested table); requested tables absent from the control plane are dropped
silently.  Direct-query fallback path: exactly one entry per requested table,
with the table names equal to the input list. -/
theorem checkRLS_results_per_table :
    (∀ (w : RlsWorld) (key : String) (ct : List String) (tables : List MgmtTable)
        (policies : List Policy) (projectRef : String),
      key ≠ "" → ct ≠ [] →
      extractProjectRef w.supabaseUrl = some projectRef →
      w.tablesResp = .ok tables → w.policiesResp = .ok policies →
      tablesToCheck tables ct ≠ [] →
      entryTableNames (checkRLS w key (some ct)).1 = checkedNames tables ct ∧
      ∀ t ∈ checkedNames tables ct, t ∈ ct) ∧
    (∀ (w : RlsWorld) (ct : List String) (projectRef : String),
      ct ≠ [] →
      extractProjectRef w.supabaseUrl = some projectRef →
      (∀ t ∈ ct, w.tableReject t = none) →
      entryTableNames (checkRLS w "" (some ct)).1 = ct) := by
  constructor
  · intro w key ct tables policies projectRef hkey hct href ht hp hne
    have hred := mgmt_probe_reduce w key ct tables policies projectRef href ht hp hne
    have hfin := checkRLS_of_mgmt_ok w key ct _ _ hkey hct hred
    constructor
    · have hentries : resultEntries (checkRLS w key (some ct)).1
          = mgmtEntries tables policies ct := by
        rw [hfin]
        by_cases hdis : (disabledNames tables policies ct).isEmpty = true
        · rw [if_pos hdis]
          rfl
        · rw [if_neg hdis]
          rfl
      unfold entryTableNames
      rw [hentries]
      rw [show mgmtEntries tables policies ct = (checkedNames tables ct).map
            (fun n => tableResultEntry n ((policyTables policies).contains n) none) from rfl]
      rw [filterMap_entryTable_mgmt]
    · intro t htm
      rcases List.mem_map.mp htm with ⟨tb, htb, rfl⟩
      have hmem := (List.mem_filter.mp htb).2
      exact List.elem_iff.mp hmem
  · intro w ct projectRef hct href hrej
    have hred := checkTablesRls_reduce w ct hrej
    have hfin := checkRLS_no_key w ct projectRef hct href
    have hentries : resultEntries (checkRLS w "" (some ct)).1 = fallbackEntries w ct := by
      rw [hfin, hred]
      rfl
    unfold entryTableNames
    rw [hentries]
    rw [show fallbackEntries w ct = (fallbackResults w ct).map
          (fun r => tableResultEntry r.table (!r.rlsDisabled) r.errorMessage) from rfl]
    rw [filterMap_entryTable_fallback]
    rw [show fallbackResults w ct
          = ct.map (fun t => (checkTableRls (w.tableWorld t) t).1) from rfl]
    rw [List.map_map]
    have heq : ct.map ((fun r : RlsCheckResult => r.table) ∘
        (fun t => (checkTableRls (w.tableWorld t) t).1)) = ct.map (fun t => t) :=
      List.map_eq_map_iff.mpr (fun t _ => checkTableRls_table (w.tableWorld t) t)
    rw [heq, List.map_id']

/-- Witness for the amended C6 on `rlsW5`. -/
theorem checkRLS_results_per_table_witness :
    entryTableNames (checkRLS rlsW5 "key" (some ["orders", "profiles"])).1 =
      checkedNames [{ name := "orders", schema := "public", type := "table" },
                    { name := "profiles", schema := "public", type := "table" }]
        ["orders", "profiles"] ∧
    ∀ t ∈ checkedNames [{ name := "orders", schema := "public", type := "table" },
                        { name := "profiles", schema := "public", type := "table" }]
            ["orders", "profiles"], t ∈ ["orders", "profiles"] :=
  checkRLS_results_per_table.1 rlsW5 "key" ["orders", "profiles"]
    [{ name := "orders", schema := "public", type := "table" },
     { name := "profiles", schema := "public", type := "table" }]
    [{ table := "orders", name := "p1", definition := "d",
       command := "SELECT", check := "c" }]
    "abc" (by decide) (by decide) rfl rfl rfl (by decide)

/-- C7 counterexample: with table `a` resolving and table `b` rejecting with
`boom`, the run degrades to status = error with the exception preserved, but
the partial result already computed for `a` is NOT attached — `details`
carries only the error and the name `a` appears nowhere in it. -/
theorem checkRLS_partial_discarded_cx :
    (checkRLS rlsW7 "" (some ["a", "b"])).1.status = Status.error ∧
    (checkRLS rlsW7 "" (some ["a", "b"])).1.message = "Error checking tables RLS: boom" ∧
    (checkRLS rlsW7 "" (some ["a", "b"])).1.details = .obj [("error", .str "boom")] ∧
    "a" ∉ jsonStrings (checkRLS rlsW7 "" (some ["a", "b"])).1.details := by
  exact ⟨rfl, rfl, rfl, by decide⟩

/-- C7 (amended): when the resolution of some table rejects, the whole run
degrades to status = error with the exception message preserved in the
message and in `details.error`; the partial per-table results computed for
the other tables are discarded, not attached — the details hold only the
error field. -/
theorem checkTablesRls_degrade (w : RlsWorld) (tables : List String) (e : String)
    (h : promiseAll (tables.map (resolveTable w)) = .error e) :
    (checkTablesRls w tables).1 =
      { status := .error
        message := "Error checking tables RLS: " ++ e
        details := .obj [("error", .str e)] } ∧
    (∀ projectRef, tables ≠ [] →
      extractProjectRef w.supabaseUrl = some projectRef →
      (checkRLS w "" (some tables)).1 =
        { status := .error
          message := "Error checking tables RLS: " ++ e
          details := .obj [("error", .str e)] }) := by
  have h1 : (checkTablesRls w tables).1 =
      { status := .error
        message := "Error checking tables RLS: " ++ e
        details := .obj [("error", .str e)] } := by
    unfold checkTablesRls
    rw [h]
  refine ⟨h1, ?_⟩
  intro projectRef hct href
  rw [checkRLS_no_key w tables projectRef hct href]
  exact h1

/-- Witness for the amended C7 on `rlsW7`. -/
theorem checkTablesRls_degrade_witness :
    (checkTablesRls rlsW7 ["a", "b"]).1 =
      { status := Status.error
        message := "Error checking tables RLS: boom"
        details := .obj [("error", .str "boom")] } :=
  (checkTablesRls_degrade rlsW7 ["a", "b"] "boom" rfl).1

end Supcheck
